import Mathlib

/-!
Verification of the token-bucket rate limiter in `src/main.py`.

The Python module keeps a process-wide dictionary `rate_limit_store`
mapping string keys to mutable buckets `{"tokens": float, "last_refill": float}`,
with configuration constants `RATE_LIMIT = 43` (per minute),
`BURST_LIMIT = 11` (bucket capacity) and `REFILL_RATE = RATE_LIMIT / 60`.
We embed the two core functions `get_client_key` and `check_rate_limit`
as pure Lean functions over rational numbers (idealising the Python
float arithmetic) with explicit store passing: a store is a total
function from keys to optional buckets, and `check_rate_limit` returns
the `(allowed, retry_after)` pair together with the updated store.
The configuration constants become a `Config` record so that statements
can quantify over the capacity, with `defaultConfig` holding the
source's concrete values.
-/

/-- A bucket, mirroring the dict `{"tokens": ..., "last_refill": ...}`
stored per key in `rate_limit_store`. -/
structure Bucket where
  tokens : ℚ
  last_refill : ℚ
deriving Repr, DecidableEq

/-- The in-memory store `rate_limit_store`: a mapping from string keys to
buckets, modelled as a total function into `Option Bucket`. -/
def Store : Type := String → Option Bucket

/-- The empty store, the initial value `rate_limit_store = {}`. -/
def emptyStore : Store := fun _ => none

/-- Writing `rate_limit_store[key] = b`. -/
def updateStore (s : Store) (key : String) (b : Bucket) : Store :=
  fun k => if k = key then some b else s k

/-- The module-level configuration constants of `main.py`, as a record so
statements can quantify over them; `RATE_LIMIT` and `BURST_LIMIT` are the
concrete values. -/
structure Config where
  burst_limit : ℚ
  refill_rate : ℚ
deriving Repr, DecidableEq

/-- The constant `RATE_LIMIT = 43` (requests per minute). -/
def RATE_LIMIT : ℚ := 43

/-- The constant `BURST_LIMIT = 11` (bucket capacity). -/
def BURST_LIMIT : ℚ := 11

/-- The constant `REFILL_RATE = RATE_LIMIT / 60` (tokens per second). -/
def REFILL_RATE : ℚ := RATE_LIMIT / 60

/-- The configuration actually used by `main.py`. -/
def defaultConfig : Config :=
  { burst_limit := BURST_LIMIT, refill_rate := REFILL_RATE }

/-- Python `int(q)` on a float: truncation toward zero. -/
def py_int (q : ℚ) : ℤ :=
  if 0 ≤ q then ⌊q⌋ else ⌈q⌉

/-- The function `get_client_key(request, user_id)`, which returns the
f-string `f"{user_id}-{ip}"` where `ip = request.client.host`; the
transport-layer address is passed here as the string `ip`. -/
def get_client_key (user_id : String) (ip : String) : String :=
  user_id ++ "-" ++ ip

/-- The function `check_rate_limit(key)`.  `now` is the value read from
`time.time()` at the top of the call, and the store is passed and
returned explicitly.  The body follows the Python line by line: lazily
create the bucket with `tokens = BURST_LIMIT`, `last_refill = now`;
compute `elapsed = now - bucket["last_refill"]` (no clamping) and
`refill = elapsed * REFILL_RATE`; set
`tokens = min(BURST_LIMIT, tokens + refill)` and `last_refill = now`;
then either consume one token and return `(True, 0)`, or return
`(False, int((1 - tokens) / REFILL_RATE) + 1)`. -/
def check_rate_limit (cfg : Config) (key : String) (now : ℚ) (s : Store) :
    (Bool × ℤ) × Store :=
  let bucket : Bucket :=
    match s key with
    | none => { tokens := cfg.burst_limit, last_refill := now }
    | some b => b
  let elapsed : ℚ := now - bucket.last_refill
  let refill : ℚ := elapsed * cfg.refill_rate
  let tokens : ℚ := min cfg.burst_limit (bucket.tokens + refill)
  if 1 ≤ tokens then
    ((true, 0), updateStore s key { tokens := tokens - 1, last_refill := now })
  else
    let retry_after : ℚ := (1 - tokens) / cfg.refill_rate
    ((false, py_int retry_after + 1),
      updateStore s key { tokens := tokens, last_refill := now })

/-- Iterate `check_rate_limit` `n` times on the same key at the same
clock instant, starting from store `s`. -/
def iterCalls (cfg : Config) (key : String) (t : ℚ) : ℕ → Store → Store
  | 0, s => s
  | n + 1, s => (check_rate_limit cfg key t (iterCalls cfg key t n s)).2

/-- Run a list of `(now, key)` calls left to right through the store. -/
def runCalls (cfg : Config) (s : Store) (calls : List (ℚ × String)) : Store :=
  calls.foldl (fun st c => (check_rate_limit cfg c.2 c.1 st).2) s

/-- Simp set that fully evaluates the limiter on concrete inputs. -/
theorem emptyStore_apply (k : String) : emptyStore k = none := rfl

theorem updateStore_self (s : Store) (key : String) (b : Bucket) :
    updateStore s key b key = some b := by
  simp [updateStore]

theorem updateStore_other (s : Store) (key k : String) (b : Bucket)
    (h : k ≠ key) : updateStore s key b k = s k := by
  simp [updateStore, h]

/-- Behaviour of one call when the key has no bucket yet: the bucket is
created with `tokens = BURST_LIMIT` and `last_refill = now`, so the
elapsed time is zero and the refill leaves `tokens = capacity`; the call
admits whenever `1 ≤ capacity`. -/
theorem check_rate_limit_create (cfg : Config) (key : String) (now : ℚ)
    (s : Store) (hs : s key = none) (hcap : 1 ≤ cfg.burst_limit) :
    check_rate_limit cfg key now s =
      ((true, 0),
        updateStore s key
          { tokens := cfg.burst_limit - 1, last_refill := now }) := by
  simp only [check_rate_limit, hs]
  rw [if_pos]
  · norm_num
  · norm_num [hcap]

/-- Behaviour of one call at the instant `t` of the stored bucket's last
refill, when at least one token is available: the token count drops by
one. -/
theorem check_rate_limit_consume (cfg : Config) (key : String) (t v : ℚ)
    (s : Store) (hs : s key = some { tokens := v, last_refill := t })
    (hv : v ≤ cfg.burst_limit) (h1 : 1 ≤ v) :
    check_rate_limit cfg key t s =
      ((true, 0), updateStore s key { tokens := v - 1, last_refill := t }) := by
  simp only [check_rate_limit, hs]
  rw [if_pos]
  · norm_num [min_eq_right, hv]
  · norm_num [min_eq_right, hv, h1]

/-- Behaviour of one call at the instant `t` of the stored bucket's last
refill, when less than one token is available: the call rejects, the
token count is unchanged, and the retry hint is `int((1 - v)/rate) + 1`. -/
theorem check_rate_limit_deplete (cfg : Config) (key : String) (t v : ℚ)
    (s : Store) (hs : s key = some { tokens := v, last_refill := t })
    (hv : v ≤ cfg.burst_limit) (h1 : v < 1) :
    check_rate_limit cfg key t s =
      ((false, py_int ((1 - v) / cfg.refill_rate) + 1),
        updateStore s key { tokens := v, last_refill := t }) := by
  simp only [check_rate_limit, hs]
  rw [if_neg]
  · norm_num [min_eq_right, hv]
  · norm_num [min_eq_right, hv, h1]

/-- C7: every call writes `last_refill = now` for the invoked key,
whether or not it admits. -/
theorem check_rate_limit_sets_last_refill (cfg : Config) (key : String)
    (now : ℚ) (s : Store) :
    ∃ b : Bucket,
      (check_rate_limit cfg key now s).2 key = some b ∧
        b.last_refill = now := by
  simp only [check_rate_limit]
  split
  · exact ⟨_, updateStore_self _ _ _, rfl⟩
  · exact ⟨_, updateStore_self _ _ _, rfl⟩

/-- C8: a call on `key` leaves every other key's entry untouched and
removes no entry from the store. -/
theorem check_rate_limit_frame (cfg : Config) (key : String) (now : ℚ)
    (s : Store) :
    (∀ k : String, k ≠ key → (check_rate_limit cfg key now s).2 k = s k) ∧
      ∀ k : String, ∀ b : Bucket, s k = some b →
        ∃ b' : Bucket, (check_rate_limit cfg key now s).2 k = some b' := by
  constructor
  · intro k hk
    simp only [check_rate_limit]
    split
    · exact updateStore_other _ _ _ _ hk
    · exact updateStore_other _ _ _ _ hk
  · intro k b hb
    by_cases hk : k = key
    · subst hk
      simp only [check_rate_limit]
      split
      · exact ⟨_, updateStore_self _ _ _⟩
      · exact ⟨_, updateStore_self _ _ _⟩
    · refine ⟨b, ?_⟩
      simp only [check_rate_limit]
      split
      · exact (updateStore_other _ _ _ _ hk).trans hb
      · exact (updateStore_other _ _ _ _ hk).trans hb

theorem check_rate_limit_frame_witness :
    ("b" : String) ≠ "a" ∧
      (check_rate_limit defaultConfig "a" 0
          (updateStore emptyStore "b" { tokens := 5, last_refill := 0 })).2 "b" =
        updateStore emptyStore "b" { tokens := 5, last_refill := 0 } "b" ∧
      ∃ b' : Bucket,
        (check_rate_limit defaultConfig "a" 0
            (updateStore emptyStore "b" { tokens := 5, last_refill := 0 })).2 "b" =
          some b' :=
  ⟨by decide,
   (check_rate_limit_frame defaultConfig "a" 0 _).1 "b" (by decide),
   (check_rate_limit_frame defaultConfig "a" 0 _).2 "b"
     { tokens := 5, last_refill := 0 } (by simp [updateStore, emptyStore])⟩

/-- The bucket looked up (or lazily created) by `check_rate_limit`. -/
def lookupBucket (cfg : Config) (s : Store) (key : String) (now : ℚ) : Bucket :=
  match s key with
  | none => { tokens := cfg.burst_limit, last_refill := now }
  | some b => b

/-- The token count right after the refill step of `check_rate_limit`:
`min(BURST_LIMIT, tokens + elapsed * REFILL_RATE)`. -/
def refilled_tokens (cfg : Config) (s : Store) (key : String) (now : ℚ) : ℚ :=
  min cfg.burst_limit
    ((lookupBucket cfg s key now).tokens +
      (now - (lookupBucket cfg s key now).last_refill) * cfg.refill_rate)

/-- Unfolding of `check_rate_limit` in terms of the post-refill count. -/
theorem check_rate_limit_eq (cfg : Config) (key : String) (now : ℚ)
    (s : Store) :
    check_rate_limit cfg key now s =
      if 1 ≤ refilled_tokens cfg s key now then
        ((true, 0),
          updateStore s key
            { tokens := refilled_tokens cfg s key now - 1, last_refill := now })
      else
        ((false,
            py_int ((1 - refilled_tokens cfg s key now) / cfg.refill_rate) + 1),
          updateStore s key
            { tokens := refilled_tokens cfg s key now, last_refill := now }) :=
  rfl

/-- A call on `key` does not change the entry of any other key. -/
theorem check_rate_limit_apply_other (cfg : Config) (key : String) (now : ℚ)
    (s : Store) (k : String) (hk : k ≠ key) :
    (check_rate_limit cfg key now s).2 k = s k := by
  rw [check_rate_limit_eq]
  split_ifs <;> exact updateStore_other _ _ _ _ hk

/-- The store invariant: every stored bucket has `0 ≤ tokens ≤ capacity`
and a last-refill timestamp at most `T`. -/
def StoreInv (cfg : Config) (T : ℚ) (s : Store) : Prop :=
  ∀ k : String, ∀ b : Bucket, s k = some b →
    0 ≤ b.tokens ∧ b.tokens ≤ cfg.burst_limit ∧ b.last_refill ≤ T

theorem storeInv_empty (cfg : Config) (T : ℚ) : StoreInv cfg T emptyStore := by
  intro k b hb
  simp [emptyStore] at hb

/-- One call preserves the store invariant provided the clock reading is
at least every stored last-refill timestamp. -/
theorem check_rate_limit_preserves_inv (cfg : Config) (T : ℚ) (key : String)
    (now : ℚ) (s : Store) (hc : 0 ≤ cfg.burst_limit)
    (hr : 0 ≤ cfg.refill_rate) (hinv : StoreInv cfg T s) (hT : T ≤ now) :
    StoreInv cfg now (check_rate_limit cfg key now s).2 := by
  have hx : 0 ≤ (lookupBucket cfg s key now).tokens +
      (now - (lookupBucket cfg s key now).last_refill) * cfg.refill_rate := by
    rcases hsk : s key with _ | b₀
    · simp [lookupBucket, hsk, hc]
    · obtain ⟨h0, hcap0, hlast0⟩ := hinv key b₀ hsk
      have hel : 0 ≤ (now - b₀.last_refill) * cfg.refill_rate :=
        mul_nonneg (by linarith) hr
      simp only [lookupBucket, hsk]
      linarith
  have ht0 : 0 ≤ refilled_tokens cfg s key now := le_min hc hx
  have htc : refilled_tokens cfg s key now ≤ cfg.burst_limit :=
    min_le_left _ _
  intro k b hkb
  by_cases hk : k = key
  · subst hk
    rw [check_rate_limit_eq] at hkb
    by_cases h1 : 1 ≤ refilled_tokens cfg s k now
    · rw [if_pos h1] at hkb
      simp only [updateStore_self, Option.some.injEq] at hkb
      subst hkb
      refine ⟨?_, ?_, le_refl now⟩
      · show 0 ≤ refilled_tokens cfg s k now - 1
        linarith
      · show refilled_tokens cfg s k now - 1 ≤ cfg.burst_limit
        linarith
    · rw [if_neg h1] at hkb
      simp only [updateStore_self, Option.some.injEq] at hkb
      subst hkb
      exact ⟨ht0, htc, le_refl now⟩
  · rw [check_rate_limit_apply_other cfg key now s k hk] at hkb
    obtain ⟨h0, hcap0, hlast0⟩ := hinv k b hkb
    exact ⟨h0, hcap0, le_trans hlast0 hT⟩

/-- Running a chain of calls whose clock readings never precede the
current bound preserves the invariant. -/
theorem runCalls_inv (cfg : Config) (hc : 0 ≤ cfg.burst_limit)
    (hr : 0 ≤ cfg.refill_rate) :
    ∀ (calls : List (ℚ × String)) (s : Store) (T : ℚ),
      StoreInv cfg T s → List.Chain (· ≤ ·) T (calls.map Prod.fst) →
      ∃ Tf : ℚ, StoreInv cfg Tf (runCalls cfg s calls) := by
  intro calls
  induction calls with
  | nil =>
    intro s T hinv _
    exact ⟨T, hinv⟩
  | cons c rest ih =>
    intro s T hinv hchain
    obtain ⟨t, k⟩ := c
    rw [List.map_cons, List.chain_cons] at hchain
    have hstep :=
      check_rate_limit_preserves_inv cfg T k t s hc hr hinv hchain.1
    have hrw : runCalls cfg s ((t, k) :: rest) =
        runCalls cfg ((check_rate_limit cfg k t s).2) rest := rfl
    rw [hrw]
    exact ih _ t hstep hchain.2

/-- C4 (amended): under non-decreasing clock readings, every bucket
satisfies `0 ≤ tokens ≤ capacity` after every call. -/
theorem bounded_tokens_of_monotone_clock (cfg : Config)
    (hc : 0 ≤ cfg.burst_limit) (hr : 0 ≤ cfg.refill_rate)
    (calls : List (ℚ × String))
    (hmono : (calls.map Prod.fst).Chain' (· ≤ ·)) :
    ∀ k : String, ∀ b : Bucket, runCalls cfg emptyStore calls k = some b →
      0 ≤ b.tokens ∧ b.tokens ≤ cfg.burst_limit := by
  cases calls with
  | nil =>
    intro k b hb
    simp [runCalls, emptyStore] at hb
  | cons c rest =>
    rw [List.map_cons] at hmono
    have hchain : List.Chain (· ≤ ·) c.1 ((c :: rest).map Prod.fst) := by
      rw [List.map_cons]
      exact List.Chain.cons (le_refl c.1) hmono
    obtain ⟨Tf, hTf⟩ :=
      runCalls_inv cfg hc hr (c :: rest) emptyStore c.1
        (storeInv_empty cfg c.1) hchain
    intro k b hb
    exact ⟨(hTf k b hb).1, (hTf k b hb).2.1⟩

theorem bounded_tokens_of_monotone_clock_witness :
    (0 : ℚ) ≤ defaultConfig.burst_limit ∧
      (0 : ℚ) ≤ defaultConfig.refill_rate ∧
      (([(0, "a"), (0, "a"), (1, "b")] : List (ℚ × String)).map
          Prod.fst).Chain' (· ≤ ·) ∧
      ∀ k : String, ∀ b : Bucket,
        runCalls defaultConfig emptyStore [(0, "a"), (0, "a"), (1, "b")] k =
            some b →
          0 ≤ b.tokens ∧ b.tokens ≤ defaultConfig.burst_limit :=
  ⟨by norm_num [defaultConfig, BURST_LIMIT],
   by norm_num [defaultConfig, REFILL_RATE, RATE_LIMIT],
   by norm_num,
   bounded_tokens_of_monotone_clock defaultConfig
     (by norm_num [defaultConfig, BURST_LIMIT])
     (by norm_num [defaultConfig, REFILL_RATE, RATE_LIMIT])
     [(0, "a"), (0, "a"), (1, "b")] (by norm_num)⟩

/-- C4 (counterexample): with a clock reading that moves backwards the
token count of a stored bucket becomes negative, violating
`0 ≤ tokens`. -/
theorem negative_tokens_on_clock_rollback :
    runCalls defaultConfig emptyStore [(100, "k"), (40, "k")] "k" =
        some { tokens := -33, last_refill := 40 } ∧
      ¬ (0 : ℚ) ≤ -33 := by
  norm_num [runCalls, check_rate_limit, emptyStore, updateStore,
    defaultConfig, BURST_LIMIT, REFILL_RATE, RATE_LIMIT, py_int]

/-- C2 (failing behaviour): the code never clamps a negative elapsed
time.  After an admitting call at time `100` the bucket holds `10`
tokens; a second call at the earlier time `40` computes
`elapsed = -60`, `refill = -43`, and stores `tokens = -33` — the refill
step changed (indeed decreased) the token count, contrary to the
specified clamp. -/
theorem no_negative_elapsed_clamp_bug :
    (check_rate_limit defaultConfig "k" 100 emptyStore).2 "k" =
        some { tokens := 10, last_refill := 100 } ∧
      (check_rate_limit defaultConfig "k" 40
          (check_rate_limit defaultConfig "k" 100 emptyStore).2).2 "k" =
        some { tokens := -33, last_refill := 40 } ∧
      (-33 : ℚ) < 10 := by
  norm_num [check_rate_limit, emptyStore, updateStore, defaultConfig,
    BURST_LIMIT, REFILL_RATE, RATE_LIMIT, py_int]

theorem updateStore_updateStore (s : Store) (key : String) (b b' : Bucket) :
    updateStore (updateStore s key b) key b' = updateStore s key b' := by
  funext k
  simp only [updateStore]
  split <;> rfl

theorem py_int_of_nonneg (q : ℚ) (h : 0 ≤ q) : py_int q = ⌊q⌋ := if_pos h

theorem py_int_nonneg (q : ℚ) (h : 0 ≤ q) : 0 ≤ py_int q := by
  rw [py_int_of_nonneg q h]
  exact Int.floor_nonneg.mpr h

/-- After `n` same-instant calls (`1 ≤ n ≤ C`) on a fresh key, the bucket
holds exactly `C - n` tokens. -/
theorem iterCalls_spec (C : ℕ) (rate t : ℚ) (key : String) (s : Store)
    (hs : s key = none) :
    ∀ n : ℕ, 1 ≤ n → n ≤ C →
      iterCalls ⟨(C : ℚ), rate⟩ key t n s =
        updateStore s key { tokens := (C : ℚ) - (n : ℚ), last_refill := t } := by
  intro n hn1 hnC
  induction n, hn1 using Nat.le_induction with
  | base =>
    have h1C : 1 ≤ ((C : ℕ) : ℚ) := by exact_mod_cast hnC
    show (check_rate_limit ⟨(C : ℚ), rate⟩ key t (iterCalls _ key t 0 s)).2 = _
    rw [show iterCalls ⟨(C : ℚ), rate⟩ key t 0 s = s from rfl,
      check_rate_limit_create ⟨(C : ℚ), rate⟩ key t s hs h1C]
    norm_num
  | succ n hn ih =>
    have hnC' : n ≤ C := le_trans (Nat.le_succ n) hnC
    have hcast : ((n : ℚ) + 1 ≤ (C : ℚ)) := by exact_mod_cast hnC
    show (check_rate_limit ⟨(C : ℚ), rate⟩ key t
        (iterCalls ⟨(C : ℚ), rate⟩ key t n s)).2 = _
    rw [ih hnC',
      check_rate_limit_consume ⟨(C : ℚ), rate⟩ key t ((C : ℚ) - (n : ℚ)) _
        (updateStore_self _ _ _)
        (by show (C : ℚ) - (n : ℚ) ≤ (C : ℚ); linarith [Nat.cast_nonneg (α := ℚ) n])
        (by show (1 : ℚ) ≤ (C : ℚ) - (n : ℚ); linarith),
      updateStore_updateStore]
    push_cast
    ring_nf

/-- C1: a fresh key with integer capacity `C ≥ 1` and positive refill
rate admits exactly `C` consecutive same-instant calls, each returning
`(true, 0)`, and the `(C+1)`-th call rejects with a retry hint of at
least one second. -/
theorem no_free_admission (C : ℕ) (hC : 1 ≤ C) (rate : ℚ) (hrate : 0 < rate)
    (t : ℚ) (key : String) (s : Store) (hs : s key = none) :
    (∀ i : ℕ, i < C →
        (check_rate_limit ⟨(C : ℚ), rate⟩ key t
            (iterCalls ⟨(C : ℚ), rate⟩ key t i s)).1 = (true, 0)) ∧
      (check_rate_limit ⟨(C : ℚ), rate⟩ key t
          (iterCalls ⟨(C : ℚ), rate⟩ key t C s)).1.1 = false ∧
      1 ≤ (check_rate_limit ⟨(C : ℚ), rate⟩ key t
            (iterCalls ⟨(C : ℚ), rate⟩ key t C s)).1.2 := by
  have hCq : 1 ≤ ((C : ℕ) : ℚ) := by exact_mod_cast hC
  have hfinal :
      check_rate_limit ⟨(C : ℚ), rate⟩ key t
          (iterCalls ⟨(C : ℚ), rate⟩ key t C s) =
        ((false, py_int ((1 - ((C : ℚ) - (C : ℚ))) / rate) + 1),
          updateStore s key
            { tokens := (C : ℚ) - (C : ℚ), last_refill := t }) := by
    rw [iterCalls_spec C rate t key s hs C hC (le_refl C),
      check_rate_limit_deplete ⟨(C : ℚ), rate⟩ key t ((C : ℚ) - (C : ℚ)) _
        (updateStore_self _ _ _)
        (by show (C : ℚ) - (C : ℚ) ≤ (C : ℚ); linarith)
        (by show (C : ℚ) - (C : ℚ) < 1; linarith),
      updateStore_updateStore]
  refine ⟨?_, ?_, ?_⟩
  · intro i hi
    rcases Nat.eq_zero_or_pos i with h0 | hpos
    · subst h0
      rw [show iterCalls ⟨(C : ℚ), rate⟩ key t 0 s = s from rfl,
        check_rate_limit_create ⟨(C : ℚ), rate⟩ key t s hs hCq]
    · have hiC : i ≤ C := le_of_lt hi
      have hcast : (i : ℚ) + 1 ≤ (C : ℚ) := by exact_mod_cast hi
      rw [iterCalls_spec C rate t key s hs i hpos hiC,
        check_rate_limit_consume ⟨(C : ℚ), rate⟩ key t ((C : ℚ) - (i : ℚ)) _
          (updateStore_self _ _ _)
          (by show (C : ℚ) - (i : ℚ) ≤ (C : ℚ); linarith [Nat.cast_nonneg (α := ℚ) i])
          (by show (1 : ℚ) ≤ (C : ℚ) - (i : ℚ); linarith)]
  · rw [hfinal]
  · rw [hfinal]
    have : (0 : ℚ) ≤ (1 - ((C : ℚ) - (C : ℚ))) / rate := by
      apply div_nonneg _ (le_of_lt hrate)
      linarith
    have h0 := py_int_nonneg _ this
    show 1 ≤ py_int ((1 - ((C : ℚ) - (C : ℚ))) / rate) + 1
    omega

theorem no_free_admission_witness :
    1 ≤ 11 ∧ 0 < REFILL_RATE ∧ emptyStore "u1-1.2.3.4" = none ∧
      ((∀ i : ℕ, i < 11 →
          (check_rate_limit ⟨((11 : ℕ) : ℚ), REFILL_RATE⟩ "u1-1.2.3.4" 0
              (iterCalls ⟨((11 : ℕ) : ℚ), REFILL_RATE⟩ "u1-1.2.3.4" 0 i
                emptyStore)).1 = (true, 0)) ∧
        (check_rate_limit ⟨((11 : ℕ) : ℚ), REFILL_RATE⟩ "u1-1.2.3.4" 0
            (iterCalls ⟨((11 : ℕ) : ℚ), REFILL_RATE⟩ "u1-1.2.3.4" 0 11
              emptyStore)).1.1 = false ∧
        1 ≤ (check_rate_limit ⟨((11 : ℕ) : ℚ), REFILL_RATE⟩ "u1-1.2.3.4" 0
              (iterCalls ⟨((11 : ℕ) : ℚ), REFILL_RATE⟩ "u1-1.2.3.4" 0 11
                emptyStore)).1.2) :=
  ⟨by norm_num, by norm_num [REFILL_RATE, RATE_LIMIT], rfl,
   no_free_admission 11 (by norm_num) REFILL_RATE
     (by norm_num [REFILL_RATE, RATE_LIMIT]) 0 "u1-1.2.3.4" emptyStore rfl⟩

/-- A call that reports `admitted = false` took the else-branch: the
post-refill count is below one, the retry hint is
`int((1 - tokens)/rate) + 1`, and the store keeps the post-refill count. -/
theorem check_rate_limit_of_reject (cfg : Config) (key : String) (now : ℚ)
    (s : Store) (hrej : (check_rate_limit cfg key now s).1.1 = false) :
    check_rate_limit cfg key now s =
        ((false,
            py_int ((1 - refilled_tokens cfg s key now) / cfg.refill_rate) + 1),
          updateStore s key
            { tokens := refilled_tokens cfg s key now, last_refill := now }) ∧
      refilled_tokens cfg s key now < 1 := by
  rw [check_rate_limit_eq] at hrej ⊢
  by_cases h1 : 1 ≤ refilled_tokens cfg s key now
  · rw [if_pos h1] at hrej
    simp at hrej
  · rw [if_neg h1]
    exact ⟨rfl, not_le.mp h1⟩

/-- C3 (amended): on every rejection the retry hint equals
`⌊(1 - tokens)/rate⌋ + 1` computed on the post-refill count, and is
therefore at least `1` (never `0`). -/
theorem retry_hint_floor_plus_one (cfg : Config)
    (hrate : 0 < cfg.refill_rate) (key : String) (now : ℚ) (s : Store)
    (hrej : (check_rate_limit cfg key now s).1.1 = false) :
    ∃ b : Bucket,
      (check_rate_limit cfg key now s).2 key = some b ∧
        (check_rate_limit cfg key now s).1.2 =
          ⌊(1 - b.tokens) / cfg.refill_rate⌋ + 1 ∧
        1 ≤ (check_rate_limit cfg key now s).1.2 := by
  obtain ⟨heq, hlt⟩ := check_rate_limit_of_reject cfg key now s hrej
  have hx0 : 0 ≤ (1 - refilled_tokens cfg s key now) / cfg.refill_rate :=
    div_nonneg (by linarith) hrate.le
  rw [heq]
  refine ⟨_, updateStore_self _ _ _, ?_, ?_⟩
  · show py_int ((1 - refilled_tokens cfg s key now) / cfg.refill_rate) + 1 =
      ⌊(1 - refilled_tokens cfg s key now) / cfg.refill_rate⌋ + 1
    rw [py_int_of_nonneg _ hx0]
  · show 1 ≤ py_int ((1 - refilled_tokens cfg s key now) / cfg.refill_rate) + 1
    have := py_int_nonneg _ hx0
    omega

theorem retry_hint_floor_plus_one_witness :
    0 < defaultConfig.refill_rate ∧
      (check_rate_limit defaultConfig "k" 0
          (updateStore emptyStore "k" { tokens := 0, last_refill := 0 })).1.1 =
        false ∧
      ∃ b : Bucket,
        (check_rate_limit defaultConfig "k" 0
            (updateStore emptyStore "k" { tokens := 0, last_refill := 0 })).2 "k" =
          some b ∧
          (check_rate_limit defaultConfig "k" 0
              (updateStore emptyStore "k"
                { tokens := 0, last_refill := 0 })).1.2 =
            ⌊(1 - b.tokens) / defaultConfig.refill_rate⌋ + 1 ∧
          1 ≤ (check_rate_limit defaultConfig "k" 0
                (updateStore emptyStore "k"
                  { tokens := 0, last_refill := 0 })).1.2 :=
  ⟨by norm_num [defaultConfig, REFILL_RATE, RATE_LIMIT],
   by norm_num [check_rate_limit, updateStore, emptyStore, defaultConfig,
     BURST_LIMIT, REFILL_RATE, RATE_LIMIT, py_int],
   retry_hint_floor_plus_one defaultConfig
     (by norm_num [defaultConfig, REFILL_RATE, RATE_LIMIT]) "k" 0 _
     (by norm_num [check_rate_limit, updateStore, emptyStore, defaultConfig,
       BURST_LIMIT, REFILL_RATE, RATE_LIMIT, py_int])⟩

/-- C3 (counterexample): deplete the default bucket with eleven calls at
time `0`, then call at time `17/43`.  The post-refill count is `17/60`,
the spec's `ceil((1 - tokens)/rate)` is `1` (and it does not truncate to
`0`), but the code returns a retry hint of `2`. -/
theorem retry_hint_not_ceil :
    (check_rate_limit defaultConfig "k" (17/43)
        (iterCalls defaultConfig "k" 0 11 emptyStore)).1 = (false, 2) ∧
      (check_rate_limit defaultConfig "k" (17/43)
          (iterCalls defaultConfig "k" 0 11 emptyStore)).2 "k" =
        some { tokens := 17/60, last_refill := 17/43 } ∧
      (1 - (17 : ℚ)/60) / REFILL_RATE = 1 ∧
      ⌈(1 : ℚ)⌉ = 1 ∧ py_int 1 = 1 ∧ (2 : ℤ) ≠ 1 := by
  refine ⟨?_, ?_, ?_, Int.ceil_one, ?_, by decide⟩
  · norm_num [check_rate_limit, iterCalls, emptyStore, updateStore,
      defaultConfig, BURST_LIMIT, REFILL_RATE, RATE_LIMIT, py_int]
  · norm_num [check_rate_limit, iterCalls, emptyStore, updateStore,
      defaultConfig, BURST_LIMIT, REFILL_RATE, RATE_LIMIT, py_int]
  · norm_num [REFILL_RATE, RATE_LIMIT]
  · norm_num [py_int]

/-- C5: if a call on `key` rejects with hint `r`, the next call on `key`
after the clock advances by exactly `r` seconds admits (for a positive
refill rate and a capacity of at least one token). -/
theorem refill_recovery (cfg : Config) (hcap : 1 ≤ cfg.burst_limit)
    (hrate : 0 < cfg.refill_rate) (key : String) (now : ℚ) (s : Store)
    (hrej : (check_rate_limit cfg key now s).1.1 = false) :
    (check_rate_limit cfg key
        (now + ((check_rate_limit cfg key now s).1.2 : ℚ))
        (check_rate_limit cfg key now s).2).1.1 = true := by
  obtain ⟨heq, hlt⟩ := check_rate_limit_of_reject cfg key now s hrej
  rw [heq]
  set rt := refilled_tokens cfg s key now with hrt
  set x := (1 - rt) / cfg.refill_rate with hxdef
  have hx0 : 0 ≤ x := div_nonneg (by linarith) hrate.le
  set r : ℤ := py_int x + 1 with hrdef
  set now' : ℚ := now + ((((false, r),
      updateStore s key { tokens := rt, last_refill := now }) :
        (Bool × ℤ) × Store).1.2 : ℚ) with hnow'
  have hrq : (r : ℚ) = (⌊x⌋ : ℚ) + 1 := by
    rw [hrdef, py_int_of_nonneg x hx0]
    push_cast
    ring
  have hxr : x < (r : ℚ) := by
    rw [hrq]
    exact Int.lt_floor_add_one x
  have hmul : (1 - rt) < (r : ℚ) * cfg.refill_rate := by
    have := mul_lt_mul_of_pos_right hxr hrate
    rwa [hxdef, div_mul_cancel₀ (1 - rt) (ne_of_gt hrate)] at this
  have hlook : lookupBucket cfg
      (updateStore s key { tokens := rt, last_refill := now }) key now' =
      { tokens := rt, last_refill := now } := by
    unfold lookupBucket
    rw [updateStore_self]
  have hrt_eq : refilled_tokens cfg
      (updateStore s key { tokens := rt, last_refill := now }) key now' =
      min cfg.burst_limit (rt + (r : ℚ) * cfg.refill_rate) := by
    unfold refilled_tokens
    rw [hlook, hnow']
    show min cfg.burst_limit (rt + (now + (r : ℚ) - now) * cfg.refill_rate) = _
    ring_nf
  have hone : 1 ≤ refilled_tokens cfg
      (updateStore s key { tokens := rt, last_refill := now }) key now' := by
    rw [hrt_eq]
    exact le_min hcap (by linarith)
  rw [check_rate_limit_eq, if_pos hone]

theorem refill_recovery_witness :
    1 ≤ defaultConfig.burst_limit ∧ 0 < defaultConfig.refill_rate ∧
      (check_rate_limit defaultConfig "k" 0
          (updateStore emptyStore "k" { tokens := 0, last_refill := 0 })).1.1 =
        false ∧
      (check_rate_limit defaultConfig "k"
          (0 + ((check_rate_limit defaultConfig "k" 0
              (updateStore emptyStore "k"
                { tokens := 0, last_refill := 0 })).1.2 : ℚ))
          (check_rate_limit defaultConfig "k" 0
            (updateStore emptyStore "k"
              { tokens := 0, last_refill := 0 })).2).1.1 = true :=
  ⟨by norm_num [defaultConfig, BURST_LIMIT],
   by norm_num [defaultConfig, REFILL_RATE, RATE_LIMIT],
   by norm_num [check_rate_limit, updateStore, emptyStore, defaultConfig,
     BURST_LIMIT, REFILL_RATE, RATE_LIMIT, py_int],
   refill_recovery defaultConfig (by norm_num [defaultConfig, BURST_LIMIT])
     (by norm_num [defaultConfig, REFILL_RATE, RATE_LIMIT]) "k" 0 _
     (by norm_num [check_rate_limit, updateStore, emptyStore, defaultConfig,
       BURST_LIMIT, REFILL_RATE, RATE_LIMIT, py_int])⟩

/-- C6 (counterexample): the separator `-` may occur in the caller-supplied
user identifier, so two distinct (user, address) pairs can share a key:
`("u1", "1-2")` and `("u1-1", "2")` both map to `"u1-1-2"`. -/
theorem get_client_key_collision :
    get_client_key "u1" "1-2" = get_client_key "u1-1" "2" ∧
      ¬(("u1" : String) = "u1-1" ∧ ("1-2" : String) = "2") := by
  constructor
  · decide
  · intro h
    exact absurd h.1 (by decide)

/-- Splitting a list at a separator character absent from both prefixes
is unambiguous. -/
theorem sep_append_inj (c : Char) :
    ∀ u₁ u₂ a₁ a₂ : List Char, c ∉ u₁ → c ∉ u₂ →
      u₁ ++ c :: a₁ = u₂ ++ c :: a₂ → u₁ = u₂ ∧ a₁ = a₂ := by
  intro u₁
  induction u₁ with
  | nil =>
    intro u₂ a₁ a₂ _ h2 heq
    cases u₂ with
    | nil => simpa using heq
    | cons d t =>
      simp only [List.nil_append, List.cons_append, List.cons.injEq] at heq
      exact absurd (heq.1 ▸ List.mem_cons_self d t) h2
  | cons d t ih =>
    intro u₂ a₁ a₂ h1 h2 heq
    cases u₂ with
    | nil =>
      simp only [List.nil_append, List.cons_append, List.cons.injEq] at heq
      exact absurd (heq.1 ▸ List.mem_cons_self d t) h1
    | cons e t₂ =>
      simp only [List.cons_append, List.cons.injEq] at heq
      obtain ⟨hde, hrest⟩ := heq
      have h1' : c ∉ t := fun hc => h1 (List.mem_cons_of_mem _ hc)
      have h2' : c ∉ t₂ := fun hc => h2 (List.mem_cons_of_mem _ hc)
      obtain ⟨ht, ha⟩ := ih t₂ a₁ a₂ h1' h2' hrest
      exact ⟨by rw [hde, ht], ha⟩

/-- C6 (amended): `get_client_key` is deterministic, and on pairs whose
user identifier contains no `-` character it is injective: keys agree
exactly when both the user identifier and the address agree.  (Without
that restriction distinct pairs may collide.) -/
theorem get_client_key_inj_of_no_dash (u₁ a₁ u₂ a₂ : String)
    (h₁ : '-' ∉ u₁.data) (h₂ : '-' ∉ u₂.data) :
    get_client_key u₁ a₁ = get_client_key u₂ a₂ ↔ u₁ = u₂ ∧ a₁ = a₂ := by
  constructor
  · intro h
    have hd : u₁.data ++ '-' :: a₁.data = u₂.data ++ '-' :: a₂.data := by
      have hc := congrArg String.data h
      simpa [get_client_key, String.data_append] using hc
    obtain ⟨hu, ha⟩ := sep_append_inj '-' u₁.data u₂.data a₁.data a₂.data h₁ h₂ hd
    exact ⟨String.ext hu, String.ext ha⟩
  · rintro ⟨rfl, rfl⟩
    rfl

theorem get_client_key_inj_of_no_dash_witness :
    '-' ∉ ("u1" : String).data ∧ '-' ∉ ("u2" : String).data ∧
      (get_client_key "u1" "1.2.3.4" = get_client_key "u2" "1.2.3.4" ↔
        ("u1" : String) = "u2" ∧ ("1.2.3.4" : String) = "1.2.3.4") :=
  ⟨by decide, by decide,
   get_client_key_inj_of_no_dash "u1" "1.2.3.4" "u2" "1.2.3.4"
     (by decide) (by decide)⟩

/-- C10: every rejecting call subtracts no token: the stored count is
exactly the post-refill value `min(capacity, tokens + elapsed * rate)`,
unconditionally — including calls whose clock reading precedes the
bucket's last refill.  Consequently, when the clock has not moved
backwards (and the stored bucket respects its capacity bound, as every
bucket the code writes does), that value is at least the pre-call
count. -/
theorem check_rate_limit_reject_keeps_tokens (cfg : Config) (key : String)
    (now : ℚ) (s : Store) (b₀ : Bucket) (hb : s key = some b₀)
    (hrej : (check_rate_limit cfg key now s).1.1 = false) :
    (check_rate_limit cfg key now s).2 key =
        some { tokens :=
                 min cfg.burst_limit
                   (b₀.tokens + (now - b₀.last_refill) * cfg.refill_rate),
               last_refill := now } ∧
      (b₀.tokens ≤ cfg.burst_limit → 0 ≤ cfg.refill_rate →
        b₀.last_refill ≤ now →
        b₀.tokens ≤
          min cfg.burst_limit
            (b₀.tokens + (now - b₀.last_refill) * cfg.refill_rate)) := by
  have hlook : lookupBucket cfg s key now = b₀ := by
    unfold lookupBucket
    rw [hb]
  have hrt : refilled_tokens cfg s key now =
      min cfg.burst_limit
        (b₀.tokens + (now - b₀.last_refill) * cfg.refill_rate) := by
    unfold refilled_tokens
    rw [hlook]
  obtain ⟨heq, _⟩ := check_rate_limit_of_reject cfg key now s hrej
  constructor
  · rw [heq]
    show updateStore s key
        { tokens := refilled_tokens cfg s key now, last_refill := now } key = _
    rw [updateStore_self, hrt]
  · intro hle hrate hnow
    exact le_min hle
      (le_add_of_nonneg_right (mul_nonneg (sub_nonneg.mpr hnow) hrate))

theorem check_rate_limit_reject_keeps_tokens_witness :
    updateStore emptyStore "k" { tokens := 1/2, last_refill := 0 } "k" =
        some { tokens := 1/2, last_refill := 0 } ∧
      (check_rate_limit defaultConfig "k" 0
          (updateStore emptyStore "k" { tokens := 1/2, last_refill := 0 })).1.1 =
        false ∧
      (check_rate_limit defaultConfig "k" 0
            (updateStore emptyStore "k" { tokens := 1/2, last_refill := 0 })).2 "k" =
          some { tokens :=
                   min defaultConfig.burst_limit
                     ((1:ℚ)/2 + (0 - 0) * defaultConfig.refill_rate),
                 last_refill := 0 } ∧
        ((1:ℚ)/2 ≤ defaultConfig.burst_limit →
          0 ≤ defaultConfig.refill_rate → (0:ℚ) ≤ 0 →
          (1:ℚ)/2 ≤
            min defaultConfig.burst_limit
              ((1:ℚ)/2 + (0 - 0) * defaultConfig.refill_rate)) :=
  ⟨by simp [updateStore],
   by norm_num [check_rate_limit, updateStore, emptyStore, defaultConfig,
     BURST_LIMIT, REFILL_RATE, RATE_LIMIT, py_int],
   check_rate_limit_reject_keeps_tokens defaultConfig "k" 0 _
     { tokens := 1/2, last_refill := 0 } (by simp [updateStore])
     (by norm_num [check_rate_limit, updateStore, emptyStore, defaultConfig,
       BURST_LIMIT, REFILL_RATE, RATE_LIMIT, py_int])⟩
